import Mathlib

/-!
# Verification of the miniapi process subsystem

Shallow embedding of `src/miniapi/process/subprocess.py` and
`src/miniapi/core/exceptions.py`.

Modelling conventions:
* A command is either a raw string or an explicit argument list
  (Python `Union[str, List[str]]`).
* The operating system is a parameter: child-process behaviour is a
  function `spawn : CmdArgs → SpawnOutcome`, the file system is a
  predicate `isFile : String → Bool`, and the two `time.time()` clock
  readings taken by `run_safe` are explicit integer parameters `t0 t1`
  (Python floats are modelled at whole-number resolution; `time.time()`
  is the adjustable wall clock, so `t1 < t0` is possible).
* Python exceptions become `Except MiniapiError`; the exception classes
  of `core/exceptions.py` become the constructors of `MiniapiError`.
* Text decoding is abstracted: `SpawnOutcome.completed` carries the
  already-decoded stdout/stderr text.
-/

namespace Miniapi

/-- The exception classes defined in `src/miniapi/core/exceptions.py`.
`processError` carries `message`, `command` and `exit_code` like the
Python `ProcessError.__init__`. -/
inductive MiniapiError where
  | platformError (message : String)
  | fileOperationError (message : String)
  | processError (message : String) (command : String) (exit_code : Option Int)
  | validationError (message : String)
  | configurationError (message : String)
  | networkError (message : String)
deriving DecidableEq, Repr

/-- Python `str(e)` on a `MiniapiError`: `__str__` returns `self.message`. -/
def MiniapiError.message : MiniapiError → String
  | .platformError m => m
  | .fileOperationError m => m
  | .processError m _ _ => m
  | .validationError m => m
  | .configurationError m => m
  | .networkError m => m

/-- The Python class name of the exception, as a caller distinguishing
errors by type (`except SomeClass:`) would see it. -/
def MiniapiError.errClass : MiniapiError → String
  | .platformError _ => "PlatformError"
  | .fileOperationError _ => "FileOperationError"
  | .processError _ _ _ => "ProcessError"
  | .validationError _ => "ValidationError"
  | .configurationError _ => "ConfigurationError"
  | .networkError _ => "NetworkError"

/-- `ProcessError(message, command, exit_code)`: when `command` is
non-empty the constructor rewrites the message. `run_safe` always calls
it with the defaults `command=""`, `exit_code=None`. -/
def mkProcessError (message : String) (command : String := "")
    (exit_code : Option Int := none) : MiniapiError :=
  if command ≠ "" then
    .processError
      ("An error occurred while executing the command '" ++ command ++ "': " ++ message)
      command exit_code
  else
    .processError message command exit_code

/-- `command: Union[str, List[str]]` — a raw string or an explicit list. -/
inductive Cmd where
  | str (s : String)
  | args (l : List String)
deriving DecidableEq, Repr

/-- Python `str(command)`: the string itself, or the `repr` of the list
(elements shown in single quotes, comma-separated, in brackets). -/
def pyStr : Cmd → String
  | .str s => s
  | .args l => "[" ++ String.intercalate ", " (l.map (fun a => "'" ++ a ++ "'")) ++ "]"

/-- What is handed to `subprocess.run`: an argument vector, or (with
`shell=True`) a single string for the platform shell. -/
inductive CmdArgs where
  | argv (l : List String)
  | shellStr (s : String)
deriving DecidableEq, Repr

/-! ## Python `str.split()` (whitespace split, used on Windows) -/

/-- Accumulator form of Python `str.split()` with no separator: split on
runs of whitespace, producing no empty tokens.  The current token is
accumulated in reverse. -/
def pySplitAux : List Char → List Char → List (List Char)
  | [], [] => []
  | [], cur => [cur.reverse]
  | c :: rest, cur =>
    if c.isWhitespace then
      match cur with
      | [] => pySplitAux rest []
      | _ :: _ => cur.reverse :: pySplitAux rest []
    else pySplitAux rest (c :: cur)

/-- Python `command.split()` — whitespace-only splitting. -/
def pySplit (s : String) : List String :=
  (pySplitAux s.data []).map (fun l => ⟨l⟩)

/-! ## `shlex.split` (POSIX-mode shell tokenization)

State machine over the characters: outside quotes whitespace separates
tokens, `\` escapes the next character, `'` starts a single-quoted run
(everything literal until the closing `'`), `"` starts a double-quoted
run in which `\` escapes only `"` and `\`.  An unterminated quote or a
trailing escape raises `ValueError` in Python, modelled as `.error`
with CPython's message.  The current token is accumulated in reverse;
`none` means no token has been started (so `''` yields an empty token). -/

inductive LexSt where
  | norm
  | sq
  | dq
deriving DecidableEq, Repr

def shlexAux : List Char → LexSt → Option (List Char) → List (List Char) →
    Except String (List (List Char))
  | [], .norm, none, acc => .ok acc.reverse
  | [], .norm, some t, acc => .ok ((t.reverse :: acc).reverse)
  | [], .sq, _, _ => .error "No closing quotation"
  | [], .dq, _, _ => .error "No closing quotation"
  | c :: rest, .norm, cur, acc =>
    if c = '\\' then
      match rest with
      | [] => .error "No escaped character"
      | d :: rest2 => shlexAux rest2 .norm (some (d :: cur.getD [])) acc
    else if c = '\'' then shlexAux rest .sq (some (cur.getD [])) acc
    else if c = '"' then shlexAux rest .dq (some (cur.getD [])) acc
    else if c.isWhitespace then
      match cur with
      | none => shlexAux rest .norm none acc
      | some t => shlexAux rest .norm none (t.reverse :: acc)
    else shlexAux rest .norm (some (c :: cur.getD [])) acc
  | c :: rest, .sq, cur, acc =>
    if c = '\'' then shlexAux rest .norm (some (cur.getD [])) acc
    else shlexAux rest .sq (some (c :: cur.getD [])) acc
  | c :: rest, .dq, cur, acc =>
    if c = '\\' then
      match rest with
      | [] => .error "No escaped character"
      | d :: rest2 =>
        if d = '"' ∨ d = '\\' then shlexAux rest2 .dq (some (d :: cur.getD [])) acc
        else shlexAux rest2 .dq (some (d :: '\\' :: cur.getD [])) acc
    else if c = '"' then shlexAux rest .norm (some (cur.getD [])) acc
    else shlexAux rest .dq (some (c :: cur.getD [])) acc
termination_by l _ _ _ => l.length

/-- `shlex.split(s)` in POSIX mode. -/
def shlexSplit (s : String) : Except String (List String) :=
  (shlexAux s.data .norm none []).map (List.map (fun l => (⟨l⟩ : String)))

/-! ## Tokenization (`run_safe` lines 76–91) -/

/-- The command-preparation step of `run_safe`: a list is passed through
unchanged (or space-joined when `shell=True`); a string is passed
verbatim when `shell=True`, split with `str.split()` on Windows and
with `shlex.split` elsewhere.  A `ValueError` from `shlex.split`
propagates as `.error` (it is caught by the generic handler later). -/
def tokenize (command : Cmd) (shell : Bool) (isWindows : Bool) :
    Except String CmdArgs :=
  match command with
  | .str s =>
    if shell then .ok (.shellStr s)
    else if isWindows then .ok (.argv (pySplit s))
    else
      match shlexSplit s with
      | .ok l => .ok (.argv l)
      | .error m => .error m
  | .args l =>
    if shell then .ok (.shellStr (String.intercalate " " l))
    else .ok (.argv l)

/-! ## `CommandResult` and `run_safe` -/

/-- Remove leading and trailing elements satisfying `p`. -/
def stripEnds {α : Type} (p : α → Bool) (l : List α) : List α :=
  ((l.dropWhile p).reverse.dropWhile p).reverse

/-- Python `str.strip()`: remove leading and trailing whitespace. -/
def pyStrip (s : String) : String :=
  ⟨stripEnds Char.isWhitespace s.data⟩

/-- The spec's claimed behaviour for the output fields: strip only the
trailing whitespace, preserving leading content ("trailing
newline/whitespace stripped", "leading content preserved").  Kept
separate from `pyStrip` (the source's `str.strip()`) so the two can be
compared. -/
def stripTrailingOnly (s : String) : String :=
  ⟨(s.data.reverse.dropWhile Char.isWhitespace).reverse⟩

/-- The `CommandResult` dataclass. `execution_time` is an integer
difference of wall-clock readings (so possibly negative). `pid` is
always `None` in the source: `subprocess.run` returns a
`CompletedProcess`, which has no `pid` attribute, so the
`hasattr(process, 'pid')` probe never succeeds. -/
structure CommandResult where
  success : Bool
  returncode : Int
  stdout : String
  stderr : String
  command : String
  execution_time : Int
  pid : Option Nat := none
deriving DecidableEq, Repr

/-- Message built by `CommandResult.raise_if_failed`. -/
def raiseIfFailedMsg (cmdS : String) (rc : Int) (stderrS : String) : String :=
  "Command execution failed (code=" ++ toString rc ++ "): " ++ cmdS ++
    "\nError Output: " ++ stderrS

/-- `CommandResult.raise_if_failed`: raises `ProcessError` when the
result is not a success, otherwise does nothing. -/
def CommandResult.raise_if_failed (r : CommandResult) : Option MiniapiError :=
  if !r.success then
    some (mkProcessError (raiseIfFailedMsg r.command r.returncode r.stderr))
  else none

/-- Message of the generic `except Exception` handler
(`f"Error executing command {command}: {str(e)}"`). -/
def wrapExecMsg (cmdS innerMsg : String) : String :=
  "Error executing command " ++ cmdS ++ ": " ++ innerMsg

/-- Message of the `FileNotFoundError` handler. -/
def notFoundMsg (cmdS : String) : String :=
  "Command not found: " ++ cmdS ++ "\nPlease ensure the command is installed and in PATH"

/-- Python `f"{x:.2f}"` on a whole-valued float (clocks are modelled at
whole-number resolution). -/
def fmt2f (n : Int) : String :=
  toString n ++ ".00"

/-- Python rendering of the `timeout` argument (`None` or the number). -/
def fmtTimeout : Option Int → String
  | none => "None"
  | some t => toString t

/-- Message of the `subprocess.TimeoutExpired` handler. -/
def timeoutMsg (timeout : Option Int) (cmdS : String) (elapsed : Int) : String :=
  "Command execution timed out (" ++ fmtTimeout timeout ++ "sec ): " ++ cmdS ++
    "\nElapsed Time: " ++ fmt2f elapsed ++ "sec"

/-- The keyword options of `run_safe` that matter to its control flow.
`cwd`, `env`, `encoding` and `errors` are forwarded to the OS /
decoder, which the model abstracts into `spawn`. -/
structure RunOpts where
  timeout : Option Int := none
  capture_output : Bool := true
  shell : Bool := false
  check : Bool := true
deriving DecidableEq, Repr

/-- What a single `subprocess.run` call does with the prepared
arguments: run to completion with an exit code and decoded output
texts, raise `TimeoutExpired`, or raise `FileNotFoundError`. -/
inductive SpawnOutcome where
  | completed (returncode : Int) (stdout stderr : String)
  | timedOut
  | notFound
deriving DecidableEq, Repr

/-- `run_safe` (subprocess.py lines 42–159).  Note that the
`raise_if_failed` call sits inside the `try:` block, so the
`ProcessError` it raises is caught by the generic `except Exception`
handler and re-wrapped with the "Error executing command" prefix. -/
def run_safe (command : Cmd) (opts : RunOpts) (isWindows : Bool)
    (spawn : CmdArgs → SpawnOutcome) (t0 t1 : Int) :
    Except MiniapiError CommandResult :=
  match tokenize command opts.shell isWindows with
  | .error m => .error (mkProcessError (wrapExecMsg (pyStr command) m))
  | .ok cmd_args =>
    match spawn cmd_args with
    | .completed rc out err =>
      let execution_time := t1 - t0
      let stdout := if opts.capture_output then out else ""
      let stderr := if opts.capture_output then err else ""
      let result : CommandResult :=
        { success := rc == 0
          returncode := rc
          stdout := if stdout ≠ "" then pyStrip stdout else ""
          stderr := if stderr ≠ "" then pyStrip stderr else ""
          command := pyStr command
          execution_time := execution_time
          pid := none }
      if opts.check && !result.success then
        match result.raise_if_failed with
        | some e => .error (mkProcessError (wrapExecMsg (pyStr command) e.message))
        | none => .ok result
      else .ok result
    | .timedOut =>
      let execution_time := t1 - t0
      .error (mkProcessError (timeoutMsg opts.timeout (pyStr command) execution_time))
    | .notFound => .error (mkProcessError (notFoundMsg (pyStr command)))

/-- `run_capture` (lines 162–177): run with `capture_output=True` and
return `result.stdout.strip()`. -/
def run_capture (command : Cmd) (opts : RunOpts) (isWindows : Bool)
    (spawn : CmdArgs → SpawnOutcome) (t0 t1 : Int) :
    Except MiniapiError String :=
  (run_safe command { opts with capture_output := true } isWindows spawn t0 t1).map
    (fun r => pyStrip r.stdout)

/-- `command_exists` (lines 219–239): `where` via the shell on Windows,
`which` elsewhere; any exception from `run_safe` is swallowed by the
bare `except:` and yields `False`.  No fallback to `find_executable`. -/
def command_exists (command : String) (isWindows : Bool)
    (spawn : CmdArgs → SpawnOutcome) (t0 t1 : Int) : Bool :=
  if isWindows then
    match run_safe (.args ["where", command])
        { capture_output := true, shell := true, check := false } true spawn t0 t1 with
    | .ok r => r.success && pyStrip r.stdout != ""
    | .error _ => false
  else
    match run_safe (.args ["which", command])
        { capture_output := true, check := false } false spawn t0 t1 with
    | .ok r => r.success
    | .error _ => false

/-! ## `find_executable` (lines 242–274) -/

/-- `Path(path_dir) / possible_name`, modelled for POSIX-style strings. -/
def pathJoin (dir name : String) : String :=
  dir ++ "/" ++ name

/-- The candidate filenames tried in each directory: the bare name, and
on Windows additionally `.exe`, `.bat`, `.cmd` in that order. -/
def possibleNames (name : String) (isWindows : Bool) : List String :=
  if isWindows then [name, name ++ ".exe", name ++ ".bat", name ++ ".cmd"]
  else [name]

/-- The inner loop of `find_executable` over the candidate names of one
directory.  The `os.access(exe_path, os.X_OK)` call's result is
discarded by the source, so an existing file is returned regardless of
executability. -/
def findInDir (dir : String) (names : List String) (isFile : String → Bool) :
    Option String :=
  match names with
  | [] => none
  | n :: rest =>
    let exe_path := pathJoin dir n
    if isFile exe_path then some exe_path
    else findInDir dir rest isFile

/-- The outer loop of `find_executable` over the search directories. -/
def findInPaths (name : String) (paths : List String) (isWindows : Bool)
    (isFile : String → Bool) : Option String :=
  match paths with
  | [] => none
  | d :: rest =>
    match findInDir d (possibleNames name isWindows) isFile with
    | some p => some p
    | none => findInPaths name rest isWindows isFile

/-- `find_executable(name, paths)` with an explicit search list (the
`paths=None` default expands to the `PATH` environment variable split
on the path separator before this loop runs). -/
def find_executable (name : String) (paths : List String) (isWindows : Bool)
    (isFile : String → Bool) : Option String :=
  findInPaths name paths isWindows isFile

/-- All candidate paths in the order the nested loops visit them:
directory-major, then candidate-name order. -/
def allCandidates (name : String) (paths : List String) (isWindows : Bool) :
    List String :=
  paths.flatMap (fun d => (possibleNames name isWindows).map (pathJoin d))

/-- The exception class (Python type) of a failed call, `none` for a
normal return — what a caller writing `except SomeClass:` dispatches on. -/
def errClassOf {α : Type} : Except MiniapiError α → Option String
  | .error e => some e.errClass
  | .ok _ => none

/-! ## Helper lemmas about `dropWhile` and stripping -/

lemma dropWhile_head_false {α : Type} (p : α → Bool) :
    ∀ (l : List α) (a : α) (t : List α), l.dropWhile p = a :: t → p a = false := by
  intro l
  induction l with
  | nil => intro a t h; simp [List.dropWhile] at h
  | cons b l' ih =>
    intro a t h
    rw [List.dropWhile_cons] at h
    cases hpb : p b
    · rw [hpb] at h
      simp only [Bool.false_eq_true, if_false] at h
      cases h
      exact hpb
    · rw [hpb] at h
      simp only [if_true] at h
      exact ih a t h

lemma dropWhile_head?_false {α : Type} (p : α → Bool) (l : List α) (a : α)
    (h : (l.dropWhile p).head? = some a) : p a = false := by
  cases hA : l.dropWhile p with
  | nil => rw [hA] at h; simp at h
  | cons b t =>
    rw [hA] at h
    simp only [List.head?_cons, Option.some.injEq] at h
    subst h
    exact dropWhile_head_false p l _ _ hA

lemma dropWhile_idem {α : Type} (p : α → Bool) (l : List α) :
    (l.dropWhile p).dropWhile p = l.dropWhile p := by
  cases h : l.dropWhile p with
  | nil => simp
  | cons a t =>
    rw [List.dropWhile_cons, dropWhile_head_false p l a t h]
    simp

lemma dropWhile_eq_self_of_head? {α : Type} (p : α → Bool) (l : List α)
    (h : ∀ a, l.head? = some a → p a = false) : l.dropWhile p = l := by
  cases l with
  | nil => rfl
  | cons a t => rw [List.dropWhile_cons, h a rfl]; simp

lemma getLast?_dropWhile {α : Type} (p : α → Bool) :
    ∀ l : List α, l.dropWhile p ≠ [] → (l.dropWhile p).getLast? = l.getLast? := by
  intro l
  induction l with
  | nil => intro h; simp [List.dropWhile] at h
  | cons b l' ih =>
    intro h
    rw [List.dropWhile_cons] at h ⊢
    cases hpb : p b
    · simp
    · rw [hpb] at h
      rw [if_pos rfl] at h ⊢
      rw [ih h]
      have hl' : l' ≠ [] := by
        intro hnil
        rw [hnil] at h
        simp [List.dropWhile] at h
      cases l' with
      | nil => exact absurd rfl hl'
      | cons c l'' => simp [List.getLast?_cons_cons]

lemma stripEnds_idem {α : Type} (p : α → Bool) (l : List α) :
    stripEnds p (stripEnds p l) = stripEnds p l := by
  unfold stripEnds
  generalize hA : l.dropWhile p = A
  generalize hC : A.reverse.dropWhile p = C
  have h1 : C.reverse.dropWhile p = C.reverse := by
    apply dropWhile_eq_self_of_head?
    intro a ha
    rw [List.head?_reverse] at ha
    have hCne : C ≠ [] := by
      intro hnil
      rw [hnil] at ha
      simp at ha
    have h2 := getLast?_dropWhile p A.reverse (by rw [hC]; exact hCne)
    rw [hC] at h2
    rw [h2, List.getLast?_reverse] at ha
    exact dropWhile_head?_false p l a (by rw [hA]; exact ha)
  rw [h1, List.reverse_reverse, ← hC, dropWhile_idem]

lemma pyStrip_idem (s : String) : pyStrip (pyStrip s) = pyStrip s :=
  congrArg String.mk (stripEnds_idem Char.isWhitespace s.data)

lemma pyStrip_empty : pyStrip "" = "" := rfl

/-- The stdout/stderr field construction of `run_safe`
(`stdout.strip() if stdout else ""` applied to the captured text)
written without the intermediate truthiness test. -/
lemma output_field_eq (c : Bool) (s : String) :
    (if (if c then s else "") ≠ "" then pyStrip (if c then s else "") else "") =
      (if c then pyStrip s else "") := by
  cases c
  · simp
  · simp only [if_true]
    by_cases hs : s = ""
    · subst hs; simp [pyStrip_empty]
    · simp [hs]

/-! ## Lemmas about the two tokenizers -/

lemma pySplitAux_nil_nil : pySplitAux [] [] = [] := rfl

lemma pySplitAux_nil_cons (a : Char) (cs : List Char) :
    pySplitAux [] (a :: cs) = [(a :: cs).reverse] := by
  rw [pySplitAux.eq_def]

lemma pySplitAux_not_ws (b : Char) (rest cur : List Char)
    (hb : b.isWhitespace = false) :
    pySplitAux (b :: rest) cur = pySplitAux rest (b :: cur) := by
  rw [pySplitAux.eq_def]
  simp [hb]

lemma pySplitAux_ws_nil (b : Char) (rest : List Char) (hb : b.isWhitespace = true) :
    pySplitAux (b :: rest) [] = pySplitAux rest [] := by
  rw [pySplitAux.eq_def]
  simp [hb]

lemma pySplitAux_ws_cons (b : Char) (rest : List Char) (a : Char) (cs : List Char)
    (hb : b.isWhitespace = true) :
    pySplitAux (b :: rest) (a :: cs) = (a :: cs).reverse :: pySplitAux rest [] := by
  rw [pySplitAux.eq_def]
  simp [hb]

lemma pySplitAux_no_ws :
    ∀ (l cur : List Char), (∀ c ∈ cur, c.isWhitespace = false) →
      ∀ t ∈ pySplitAux l cur, ∀ c ∈ t, c.isWhitespace = false := by
  intro l
  induction l with
  | nil =>
    intro cur hcur t ht c hc
    cases cur with
    | nil => rw [pySplitAux_nil_nil] at ht; simp at ht
    | cons a cs =>
      rw [pySplitAux_nil_cons, List.mem_singleton] at ht
      subst ht
      exact hcur c (List.mem_reverse.mp hc)
  | cons b rest ih =>
    intro cur hcur t ht c hc
    cases hb : b.isWhitespace
    · rw [pySplitAux_not_ws b rest cur hb] at ht
      refine ih (b :: cur) ?_ t ht c hc
      intro d hd
      cases List.mem_cons.mp hd with
      | inl h1 => rw [h1]; exact hb
      | inr h2 => exact hcur d h2
    · cases cur with
      | nil =>
        rw [pySplitAux_ws_nil b rest hb] at ht
        exact ih [] (by simp) t ht c hc
      | cons a cs =>
        rw [pySplitAux_ws_cons b rest a cs hb] at ht
        cases List.mem_cons.mp ht with
        | inl h1 =>
          subst h1
          exact hcur c (List.mem_reverse.mp hc)
        | inr h2 => exact ih [] (by simp) t h2 c hc

/-- On Windows (`str.split()`), every token is whitespace-free: a quoted
substring containing whitespace can never survive as one token. -/
lemma pySplit_no_ws (s : String) :
    ∀ t ∈ pySplit s, ∀ c ∈ t.data, c.isWhitespace = false := by
  intro t ht c hc
  unfold pySplit at ht
  obtain ⟨l, hl, rfl⟩ := List.mem_map.mp ht
  exact pySplitAux_no_ws s.data [] (by simp) l hl c hc

lemma shlexAux_nil_norm_some (t : List Char) (acc : List (List Char)) :
    shlexAux [] LexSt.norm (some t) acc = .ok ((t.reverse :: acc).reverse) := by
  rw [shlexAux.eq_def]

lemma shlexAux_norm_open_quote (rest : List Char) (cur : Option (List Char))
    (acc : List (List Char)) :
    shlexAux ('\'' :: rest) LexSt.norm cur acc =
      shlexAux rest LexSt.sq (some (cur.getD [])) acc := by
  rw [shlexAux.eq_def]
  simp

lemma shlexAux_sq_close (rest : List Char) (cur : List Char)
    (acc : List (List Char)) :
    shlexAux ('\'' :: rest) LexSt.sq (some cur) acc =
      shlexAux rest LexSt.norm (some cur) acc := by
  rw [shlexAux.eq_def]
  simp

lemma shlexAux_sq_step (c : Char) (rest : List Char) (cur : List Char)
    (acc : List (List Char)) (hc : ¬(c = '\'')) :
    shlexAux (c :: rest) LexSt.sq (some cur) acc =
      shlexAux rest LexSt.sq (some (c :: cur)) acc := by
  rw [shlexAux.eq_def]
  simp [hc]

lemma shlexAux_sq_append :
    ∀ (inner : List Char), '\'' ∉ inner →
      ∀ (cur : List Char) (acc : List (List Char)) (rest : List Char),
        shlexAux (inner ++ '\'' :: rest) LexSt.sq (some cur) acc =
          shlexAux rest LexSt.norm (some (inner.reverse ++ cur)) acc := by
  intro inner
  induction inner with
  | nil =>
    intro _ cur acc rest
    rw [List.nil_append, shlexAux_sq_close]
    simp
  | cons c cs ih =>
    intro hni cur acc rest
    have hc : ¬(c = '\'') := by
      intro hEq
      exact hni (hEq ▸ List.mem_cons_self c cs)
    have hcs : '\'' ∉ cs := fun h => hni (List.mem_cons_of_mem c h)
    rw [List.cons_append, shlexAux_sq_step c _ cur acc hc, ih hcs (c :: cur) acc rest]
    have harg : (c :: cs).reverse ++ cur = cs.reverse ++ (c :: cur) := by
      simp [List.append_assoc]
    rw [harg]

lemma shlexAux_quoted (inner : List Char) (h : '\'' ∉ inner) :
    shlexAux ('\'' :: (inner ++ '\'' :: [])) LexSt.norm none [] = .ok [inner] := by
  rw [shlexAux_norm_open_quote, Option.getD_none, shlexAux_sq_append inner h [] [] [],
    shlexAux_nil_norm_some]
  simp

/-- `shlex.split` keeps a single-quoted run (quote-free inside) as
exactly one token, whatever it contains — whitespace included. -/
lemma shlexSplit_single_quoted (inner : String) (h : '\'' ∉ inner.data) :
    shlexSplit ("'" ++ inner ++ "'") = .ok [inner] := by
  unfold shlexSplit
  have hdata : ("'" ++ inner ++ "'").data = '\'' :: (inner.data ++ '\'' :: []) := by
    rw [String.data_append, String.data_append]
    rfl
  rw [hdata, shlexAux_quoted inner.data h]
  rfl

/-! ## Claim theorems -/

/-- C1: every `CommandResult` returned by a synchronous `run_safe` call
satisfies `success = (returncode == 0)`; in particular, when the child
completes with exit code `N` and a result is returned, it has
`returncode = N` and `success = (N == 0)`. -/
theorem run_safe_success_iff_returncode_zero :
    (∀ (cmd : Cmd) (opts : RunOpts) (win : Bool) (spawn : CmdArgs → SpawnOutcome)
        (t0 t1 : Int) (res : CommandResult),
        run_safe cmd opts win spawn t0 t1 = .ok res →
        res.success = (res.returncode == 0)) ∧
    (∀ (cmd : Cmd) (opts : RunOpts) (win : Bool) (N : Int) (out err : String)
        (t0 t1 : Int) (res : CommandResult),
        run_safe cmd opts win (fun _ => SpawnOutcome.completed N out err) t0 t1 = .ok res →
        res.returncode = N ∧ res.success = (N == 0)) := by
  constructor
  · intro cmd opts win spawn t0 t1 res h
    simp only [run_safe] at h
    split at h
    · simp at h
    · split at h
      · split at h
        · split at h
          · simp at h
          · injection h with h2
            subst h2
            rfl
        · injection h with h2
          subst h2
          rfl
      · simp at h
      · simp at h
  · intro cmd opts win N out err t0 t1 res h
    simp only [run_safe] at h
    split at h
    · simp at h
    · split at h
      · split at h
        · simp at h
        · injection h with h2
          subst h2
          exact ⟨rfl, rfl⟩
      · injection h with h2
        subst h2
        exact ⟨rfl, rfl⟩

/-- C1 witness: a concrete successful run. -/
theorem run_safe_success_iff_returncode_zero_witness :
    ({ success := true, returncode := 0, stdout := "ok", stderr := "",
       command := "['x']", execution_time := 1, pid := none } : CommandResult).success =
      (({ success := true, returncode := 0, stdout := "ok", stderr := "",
          command := "['x']", execution_time := 1, pid := none } : CommandResult).returncode
        == 0) :=
  run_safe_success_iff_returncode_zero.1 (Cmd.args ["x"]) {} false
    (fun _ => SpawnOutcome.completed 0 "ok\n" "") 0 1
    { success := true, returncode := 0, stdout := "ok", stderr := "",
      command := "['x']", execution_time := 1, pid := none } rfl

/-- C4: an explicit argument list with shell mode not requested is
tokenized to itself, unchanged, on every platform. -/
theorem tokenize_list_identity :
    ∀ (l : List String) (win : Bool),
      tokenize (Cmd.args l) false win = .ok (.argv l) := by
  intro l win
  rfl

/-- C8 counterexample: the source applies Python `str.strip()`, which
also removes leading whitespace, so for captured stdout `"  hello\n"`
the returned field is `"hello"`, not the spec's trailing-only strip
`"  hello"`. -/
theorem stdout_leading_whitespace_counterexample :
    (run_safe (Cmd.args ["x"]) {} false
        (fun _ => SpawnOutcome.completed 0 "  hello\n" "") 0 1).map CommandResult.stdout =
      .ok "hello" ∧
    stripTrailingOnly "  hello\n" = "  hello" ∧
    ("hello" : String) ≠ "  hello" :=
  ⟨rfl, rfl, by decide⟩

/-- C8 amended: for a completed execution that returns a result, the
stdout/stderr fields are the captured texts with leading AND trailing
whitespace stripped (`str.strip()`), and the empty string when capture
is disabled. -/
theorem run_safe_strips_both_ends :
    ∀ (cmd : Cmd) (opts : RunOpts) (win : Bool) (rc : Int) (out err : String)
      (t0 t1 : Int) (res : CommandResult),
      run_safe cmd opts win (fun _ => SpawnOutcome.completed rc out err) t0 t1 = .ok res →
      res.stdout = (if opts.capture_output then pyStrip out else "") ∧
      res.stderr = (if opts.capture_output then pyStrip err else "") := by
  intro cmd opts win rc out err t0 t1 res h
  simp only [run_safe] at h
  split at h
  · simp at h
  · split at h
    · split at h
      · simp at h
      · injection h with h2
        subst h2
        exact ⟨output_field_eq _ _, output_field_eq _ _⟩
    · injection h with h2
      subst h2
      exact ⟨output_field_eq _ _, output_field_eq _ _⟩

/-- C8 amended witness: a concrete run with leading and trailing
whitespace in both streams. -/
theorem run_safe_strips_both_ends_witness :
    ({ success := true, returncode := 0, stdout := "hi", stderr := "e",
       command := "['x']", execution_time := 1, pid := none } : CommandResult).stdout =
      (if ({} : RunOpts).capture_output then pyStrip "  hi\n" else "") ∧
    ({ success := true, returncode := 0, stdout := "hi", stderr := "e",
       command := "['x']", execution_time := 1, pid := none } : CommandResult).stderr =
      (if ({} : RunOpts).capture_output then pyStrip " e " else "") :=
  run_safe_strips_both_ends (Cmd.args ["x"]) {} false 0 "  hi\n" " e " 0 1
    { success := true, returncode := 0, stdout := "hi", stderr := "e",
      command := "['x']", execution_time := 1, pid := none } rfl

/-- C9 counterexample: `run_safe` reads `time.time()` (the adjustable
wall clock, not a monotonic clock), so when the clock steps backwards
during the call (start reading 5, end reading 3) the recorded
`execution_time` is negative. -/
theorem execution_time_negative_counterexample :
    (run_safe (Cmd.args ["x"]) {} false
        (fun _ => SpawnOutcome.completed 0 "" "") 5 3).map CommandResult.execution_time =
      .ok (-2) ∧
    ¬(0 ≤ (-2 : Int)) :=
  ⟨rfl, by decide⟩

/-- C9 amended: `execution_time` equals the difference of the end and
start wall-clock readings; it is non-negative whenever the wall clock
did not move backwards during the call. -/
theorem execution_time_clock_difference :
    ∀ (cmd : Cmd) (opts : RunOpts) (win : Bool) (spawn : CmdArgs → SpawnOutcome)
      (t0 t1 : Int) (res : CommandResult),
      run_safe cmd opts win spawn t0 t1 = .ok res →
      res.execution_time = t1 - t0 ∧ (t0 ≤ t1 → 0 ≤ res.execution_time) := by
  intro cmd opts win spawn t0 t1 res h
  simp only [run_safe] at h
  split at h
  · simp at h
  · split at h
    · split at h
      · split at h
        · simp at h
        · injection h with h2
          subst h2
          exact ⟨rfl, fun hle => Int.sub_nonneg.mpr hle⟩
      · injection h with h2
        subst h2
        exact ⟨rfl, fun hle => Int.sub_nonneg.mpr hle⟩
    · simp at h
    · simp at h

/-- C9 amended witness: a concrete run with the clock moving forward. -/
theorem execution_time_clock_difference_witness :
    ({ success := true, returncode := 0, stdout := "", stderr := "",
       command := "['x']", execution_time := 2, pid := none } : CommandResult).execution_time =
      2 - 0 ∧
    ((0 : Int) ≤ 2 →
      0 ≤ ({ success := true, returncode := 0, stdout := "", stderr := "",
             command := "['x']", execution_time := 2, pid := none } :
              CommandResult).execution_time) :=
  execution_time_clock_difference (Cmd.args ["x"]) {} false
    (fun _ => SpawnOutcome.completed 0 "" "") 0 2
    { success := true, returncode := 0, stdout := "", stderr := "",
      command := "['x']", execution_time := 2, pid := none } rfl

lemma run_safe_stdout_stripped (cmd : Cmd) (opts : RunOpts) (win : Bool)
    (spawn : CmdArgs → SpawnOutcome) (t0 t1 : Int) (res : CommandResult)
    (h : run_safe cmd opts win spawn t0 t1 = .ok res) :
    pyStrip res.stdout = res.stdout := by
  simp only [run_safe] at h
  split at h
  · simp at h
  · split at h
    · split at h
      · split at h
        · simp at h
        · injection h with h2
          subst h2
          show pyStrip (if _ ≠ "" then _ else "") = _
          rw [output_field_eq]
          cases opts.capture_output
          · exact pyStrip_empty
          · exact pyStrip_idem _
      · injection h with h2
        subst h2
        show pyStrip (if _ ≠ "" then _ else "") = _
        rw [output_field_eq]
        cases opts.capture_output
        · exact pyStrip_empty
        · exact pyStrip_idem _
    · simp at h
    · simp at h

/-- C10: `run_capture` returns exactly the `stdout` field of
`run_safe` with output capture forced on — the extra `strip()` it
applies is the identity because the field is already stripped. -/
theorem run_capture_returns_run_safe_stdout :
    ∀ (cmd : Cmd) (opts : RunOpts) (win : Bool) (spawn : CmdArgs → SpawnOutcome)
      (t0 t1 : Int),
      run_capture cmd opts win spawn t0 t1 =
        (run_safe cmd { opts with capture_output := true } win spawn t0 t1).map
          CommandResult.stdout := by
  intro cmd opts win spawn t0 t1
  unfold run_capture
  cases h : run_safe cmd { opts with capture_output := true } win spawn t0 t1 with
  | error e => rfl
  | ok r =>
    simp only [Except.map]
    rw [run_safe_stdout_stripped cmd { opts with capture_output := true } win spawn t0 t1 r h]

/-- C2: for a child completing with a non-zero exit code, `run_safe`
with auto-raise (`check`) enabled fails with a `ProcessError` whose
message embeds the original command text and the captured stderr
(re-wrapped by the generic handler, since `raise_if_failed` is called
inside the `try:` block); with `check` disabled it returns normally
with `success = false` and takes no exception path. -/
theorem run_safe_check_toggle :
    ∀ (cmd : Cmd) (opts : RunOpts) (win : Bool) (rc : Int) (out err : String)
      (t0 t1 : Int), rc ≠ 0 → (∃ a, tokenize cmd opts.shell win = .ok a) →
      (opts.check = true →
        run_safe cmd opts win (fun _ => SpawnOutcome.completed rc out err) t0 t1 =
          .error (MiniapiError.processError
            (wrapExecMsg (pyStr cmd)
              (raiseIfFailedMsg (pyStr cmd) rc
                (if opts.capture_output then pyStrip err else ""))) "" none)) ∧
      (opts.check = false →
        ∃ res, run_safe cmd opts win (fun _ => SpawnOutcome.completed rc out err) t0 t1 =
            .ok res ∧ res.success = false) := by
  intro cmd opts win rc out err t0 t1 hne hta
  obtain ⟨a, ha⟩ := hta
  have hrc : (rc == 0) = false := by simp [hne]
  constructor
  · intro hcheck
    simp only [run_safe, ha, hcheck, hrc, CommandResult.raise_if_failed, mkProcessError,
      MiniapiError.message, Bool.not_false, Bool.and_self, if_true, output_field_eq]
    simp [output_field_eq]
  · intro hcheck
    simp only [run_safe, ha, hcheck, Bool.false_and, if_false]
    exact ⟨_, rfl, hrc⟩

/-- C2 witness: a concrete failing command under both settings of the
auto-raise toggle. -/
theorem run_safe_check_toggle_witness :
    run_safe (Cmd.args ["ls"]) {} false (fun _ => SpawnOutcome.completed 2 "" "boom\n") 0 1 =
      .error (MiniapiError.processError
        (wrapExecMsg (pyStr (Cmd.args ["ls"]))
          (raiseIfFailedMsg (pyStr (Cmd.args ["ls"])) 2
            (if ({} : RunOpts).capture_output then pyStrip "boom\n" else ""))) "" none) ∧
    (∃ res, run_safe (Cmd.args ["ls"]) { check := false } false
        (fun _ => SpawnOutcome.completed 2 "" "boom\n") 0 1 = .ok res ∧
        res.success = false) :=
  ⟨(run_safe_check_toggle (Cmd.args ["ls"]) {} false 2 "" "boom\n" 0 1 (by decide)
      ⟨_, rfl⟩).1 rfl,
   (run_safe_check_toggle (Cmd.args ["ls"]) { check := false } false 2 "" "boom\n" 0 1
      (by decide) ⟨_, rfl⟩).2 rfl⟩

/-- C3 counterexample: the spawn-failure, timeout and non-zero-exit
failures all surface as the same exception class `ProcessError` (the
source defines no `CommandNotFoundError`, `ProcessTimeoutError` or
`ProcessExecutionError`), so a caller cannot distinguish the three
cases by error type. -/
theorem error_kinds_counterexample :
    errClassOf (run_safe (Cmd.args ["probe"]) {} false
        (fun _ => SpawnOutcome.notFound) 0 1) = some "ProcessError" ∧
    errClassOf (run_safe (Cmd.args ["probe"]) { timeout := some 5 } false
        (fun _ => SpawnOutcome.timedOut) 0 6) = some "ProcessError" ∧
    errClassOf (run_safe (Cmd.args ["probe"]) {} false
        (fun _ => SpawnOutcome.completed 1 "" "boom") 0 1) = some "ProcessError" :=
  ⟨rfl, rfl, rfl⟩

/-- C3 amended: all three failure cases raise the single class
`ProcessError`; they are distinguishable only by message text — the
spawn-failure message names the requested command, the timeout message
carries the configured timeout and the observed elapsed time, and the
non-zero-exit message carries the command text and captured stderr. -/
theorem run_safe_single_error_class :
    ∀ (cmd : Cmd) (opts : RunOpts) (win : Bool) (t0 t1 : Int) (rc : Int)
      (out err : String),
      (∃ a, tokenize cmd opts.shell win = .ok a) →
      (run_safe cmd opts win (fun _ => SpawnOutcome.notFound) t0 t1 =
        .error (.processError (notFoundMsg (pyStr cmd)) "" none)) ∧
      (run_safe cmd opts win (fun _ => SpawnOutcome.timedOut) t0 t1 =
        .error (.processError (timeoutMsg opts.timeout (pyStr cmd) (t1 - t0)) "" none)) ∧
      (opts.check = true → rc ≠ 0 →
        run_safe cmd opts win (fun _ => SpawnOutcome.completed rc out err) t0 t1 =
          .error (.processError
            (wrapExecMsg (pyStr cmd)
              (raiseIfFailedMsg (pyStr cmd) rc
                (if opts.capture_output then pyStrip err else ""))) "" none)) := by
  intro cmd opts win t0 t1 rc out err hta
  obtain ⟨a, ha⟩ := hta
  refine ⟨?_, ?_, ?_⟩
  · simp only [run_safe, ha, mkProcessError]
    simp
  · simp only [run_safe, ha, mkProcessError]
    simp
  · intro hcheck hne
    have hrc : (rc == 0) = false := by simp [hne]
    simp only [run_safe, ha, hcheck, hrc, CommandResult.raise_if_failed, mkProcessError,
      MiniapiError.message, Bool.not_false, Bool.and_self, if_true, output_field_eq]
    simp [output_field_eq]

/-- C3 amended witness: the three concrete failure messages. -/
theorem run_safe_single_error_class_witness :
    run_safe (Cmd.args ["probe"]) {} false (fun _ => SpawnOutcome.notFound) 0 1 =
      .error (.processError (notFoundMsg (pyStr (Cmd.args ["probe"]))) "" none) ∧
    run_safe (Cmd.args ["probe"]) { timeout := some 5 } false
        (fun _ => SpawnOutcome.timedOut) 0 6 =
      .error (.processError
        (timeoutMsg (some 5) (pyStr (Cmd.args ["probe"])) (6 - 0)) "" none) ∧
    run_safe (Cmd.args ["probe"]) {} false
        (fun _ => SpawnOutcome.completed 1 "" "boom") 0 1 =
      .error (.processError
        (wrapExecMsg (pyStr (Cmd.args ["probe"]))
          (raiseIfFailedMsg (pyStr (Cmd.args ["probe"])) 1
            (if ({} : RunOpts).capture_output then pyStrip "boom" else ""))) "" none) :=
  ⟨(run_safe_single_error_class (Cmd.args ["probe"]) {} false 0 1 1 "" "boom" ⟨_, rfl⟩).1,
   (run_safe_single_error_class (Cmd.args ["probe"]) { timeout := some 5 } false 0 6 1 ""
      "boom" ⟨_, rfl⟩).2.1,
   (run_safe_single_error_class (Cmd.args ["probe"]) {} false 0 1 1 "" "boom"
      ⟨_, rfl⟩).2.2 rfl (by decide)⟩

/-- C5: a raw command string with shell mode not requested is split on
whitespace only on Windows (so no token retains whitespace and quoting
cannot be honored there), and with `shlex.split` elsewhere (so a
single-quoted substring — whitespace and all — stays one token). -/
theorem tokenize_platform_split :
    (∀ s : String, tokenize (Cmd.str s) false true = .ok (.argv (pySplit s))) ∧
    (∀ s : String, ∀ t ∈ pySplit s, ∀ c ∈ t.data, c.isWhitespace = false) ∧
    (∀ (s : String) (l : List String), shlexSplit s = .ok l →
      tokenize (Cmd.str s) false false = .ok (.argv l)) ∧
    (∀ inner : String, '\'' ∉ inner.data →
      tokenize (Cmd.str ("'" ++ inner ++ "'")) false false = .ok (.argv [inner])) := by
  refine ⟨fun s => rfl, pySplit_no_ws, ?_, ?_⟩
  · intro s l h
    simp [tokenize, h]
  · intro inner h
    simp [tokenize, shlexSplit_single_quoted inner h]

/-- C5 witness: `'a b'` stays one token on POSIX; on Windows the split
tokens never contain whitespace. -/
theorem tokenize_platform_split_witness :
    tokenize (Cmd.str ("'" ++ "a b" ++ "'")) false false = .ok (.argv ["a b"]) ∧
    'a'.isWhitespace = false :=
  ⟨tokenize_platform_split.2.2.2 "a b" (by decide),
   tokenize_platform_split.2.1 "'a b'" "'a" (by decide) 'a' (by decide)⟩

lemma findInDir_eq_find? (dir : String) (isFile : String → Bool) :
    ∀ names : List String,
      findInDir dir names isFile = (names.map (pathJoin dir)).find? isFile := by
  intro names
  induction names with
  | nil => rfl
  | cons n rest ih =>
    simp only [findInDir, List.map_cons, List.find?_cons]
    cases hf : isFile (pathJoin dir n)
    · simp [hf, ih]
    · simp [hf]

lemma findInPaths_eq_find? (name : String) (win : Bool) (isFile : String → Bool) :
    ∀ paths : List String,
      findInPaths name paths win isFile = (allCandidates name paths win).find? isFile := by
  intro paths
  induction paths with
  | nil => rfl
  | cons d rest ih =>
    have hflat : allCandidates name (d :: rest) win =
        (possibleNames name win).map (pathJoin d) ++ allCandidates name rest win := by
      simp [allCandidates]
    rw [hflat, List.find?_append]
    simp only [findInPaths, findInDir_eq_find?, ih]
    cases hd : ((possibleNames name win).map (pathJoin d)).find? isFile
    · simp
    · simp

/-- C6: `find_executable` returns the first existing file among the
candidates, visiting directories in search order and, inside each
directory, the bare name first then (on Windows) `.exe`, `.bat`,
`.cmd`; it returns `none` exactly when no candidate exists; when two
directories both hold the executable, the earlier directory wins. -/
theorem find_executable_first_match :
    (∀ (name : String) (paths : List String) (win : Bool) (isFile : String → Bool),
      find_executable name paths win isFile = (allCandidates name paths win).find? isFile) ∧
    (∀ (name : String) (paths : List String) (win : Bool) (isFile : String → Bool),
      (find_executable name paths win isFile = none ↔
        ∀ c ∈ allCandidates name paths win, isFile c = false)) ∧
    (∀ (name dirA dirB : String) (win : Bool) (isFile : String → Bool),
      isFile (pathJoin dirA name) = true →
      find_executable name [dirA, dirB] win isFile = some (pathJoin dirA name)) := by
  refine ⟨?_, ?_, ?_⟩
  · intro name paths win isFile
    exact findInPaths_eq_find? name win isFile paths
  · intro name paths win isFile
    rw [show find_executable name paths win isFile = _ from
      findInPaths_eq_find? name win isFile paths]
    rw [List.find?_eq_none]
    simp [Bool.not_eq_true]
  · intro name dirA dirB win isFile h
    cases win <;> simp [find_executable, findInPaths, findInDir, possibleNames, h]

/-- C6 witness: two directories both containing `probe`; the earlier
one is returned. -/
theorem find_executable_first_match_witness :
    find_executable "probe" ["/a", "/b"] false
        (fun p => p == "/a/probe" || p == "/b/probe") =
      some (pathJoin "/a" "probe") :=
  find_executable_first_match.2.2 "probe" "/a" "/b" false
    (fun p => p == "/a/probe" || p == "/b/probe") (by decide)

/-- C7 counterexample: when the native lookup (`which`) itself fails to
spawn, `command_exists` returns `false` via its bare `except:` without
consulting the PATH scan — even though `find_executable` would have
located the command in the very same situation. -/
theorem command_exists_no_fallback_counterexample :
    command_exists "probe" false (fun _ => SpawnOutcome.notFound) 0 0 = false ∧
    find_executable "probe" ["/usr/bin"] false (fun p => p == "/usr/bin/probe") =
      some "/usr/bin/probe" :=
  ⟨rfl, rfl⟩

/-- C7 amended: `command_exists` consults only the platform-native
facility (`where` via the shell on Windows, `which` elsewhere); when
that facility cannot be spawned it returns `false` with no fallback to
the PATH scan, and otherwise it reports the facility's success (plus a
non-empty-stdout check on Windows). -/
theorem command_exists_native_only :
    ∀ (cmd : String) (spawn : CmdArgs → SpawnOutcome) (t0 t1 : Int),
      ((∀ a, spawn a = SpawnOutcome.notFound) →
        command_exists cmd false spawn t0 t1 = false ∧
        command_exists cmd true spawn t0 t1 = false) ∧
      (∀ (rc : Int) (out err : String),
        spawn (CmdArgs.argv ["which", cmd]) = SpawnOutcome.completed rc out err →
        command_exists cmd false spawn t0 t1 = (rc == 0)) := by
  intro cmd spawn t0 t1
  constructor
  · intro hnf
    constructor
    · simp [command_exists, run_safe, tokenize, hnf]
    · simp [command_exists, run_safe, tokenize, hnf]
  · intro rc out err hsp
    simp [command_exists, run_safe, tokenize, hsp]

/-- C7 amended witness: a failing native lookup yields `false`; a
successful `which` yields `true`. -/
theorem command_exists_native_only_witness :
    command_exists "git" false (fun _ => SpawnOutcome.notFound) 0 0 = false ∧
    command_exists "git" false (fun _ => SpawnOutcome.completed 0 "/usr/bin/git\n" "") 0 0 =
      ((0 : Int) == 0) :=
  ⟨((command_exists_native_only "git" (fun _ => SpawnOutcome.notFound) 0 0).1
      (fun _ => rfl)).1,
   (command_exists_native_only "git"
      (fun _ => SpawnOutcome.completed 0 "/usr/bin/git\n" "") 0 0).2 0 "/usr/bin/git\n" "" rfl⟩

end Miniapi
